import Mathlib

set_option maxRecDepth 8000

namespace JDash

/-!
Shallow embedding of the jdash asynchronous coordination and log-streaming core:
the Scrub Engine (`StripANSISecrets`, src/unnamed/part_006), the Log Stream
Controller (console `Model`, src/unnamed/part_005), the generational ticket
reconciliation of the details/search panels (src/internal/details/model.go,
src/internal/jobs/model.go, src/internal/jobs/search.go, src/unnamed/part_021),
and the job tree (src/internal/jobs/tree.go, src/internal/jenkins/types.go).
Strings of log bytes are modelled as `List Nat` (Go indexes strings by byte);
UI-only state (viewports, spinners, timestamps) is not modelled.
-/

/-! Scrub Engine (utils.StripANSISecrets). -/

-- Byte constants: 13 = carriage return, 27 = ESC, 91 = the byte for an opening
-- square bracket, 93 = closing square bracket, 109 = the byte for m, 7 = BEL,
-- 92 = backslash, 59 = semicolon, 56 = the digit 8, 48 = the digit 0,
-- 50 = the digit 2, 64 and 126 bound the CSI final-byte range.

/-- Scans the bytes following ESC and the opening bracket for the first byte in
the final-byte range 64..126. Mirrors the inner loop at part_006 lines 38-45:
returns the parameter bytes, the final byte, and the remaining input, or `none`
when the sequence is unterminated. -/
def csiScan : List Nat → Option (List Nat × Nat × List Nat)
  | [] => none
  | b :: rest =>
    if 64 ≤ b ∧ b ≤ 126 then some ([], b, rest)
    else
      match csiScan rest with
      | none => none
      | some (p, f, r) => some (b :: p, f, r)

/-- Skips an OSC sequence: consumes bytes until a BEL (consumed) or an
ESC-backslash pair (consumed), mirroring part_006 lines 76-88; returns the
remaining input (empty when no terminator occurs). -/
def oscScan : List Nat → List Nat
  | [] => []
  | b :: rest =>
    if b = 7 then rest
    else if b = 27 then
      match rest with
      | 92 :: rest2 => rest2
      | _ => oscScan rest
    else oscScan rest

/-- Splits a parameter byte list on semicolons, as strings.Split does
(empty parts are preserved; the split of the empty list is one empty part). -/
def splitParams : List Nat → List (List Nat)
  | [] => [[]]
  | b :: rest =>
    if b = 59 then [] :: splitParams rest
    else
      match splitParams rest with
      | [] => [[b]]
      | p :: ps => (b :: p) :: ps

/-- Applies one SGR parameter to the conceal flag: "8" turns conceal on;
"0", "00" and "28" turn it off; anything else leaves it unchanged
(part_006 lines 58-67). -/
def applySGRPart (conceal : Bool) (part : List Nat) : Bool :=
  if part = [56] then true
  else if part = [48] ∨ part = [48, 48] ∨ part = [50, 56] then false
  else conceal

/-- Applies a full SGR parameter list: an empty list resets conceal to false
(part_006 lines 52-55); otherwise the semicolon-separated parts are applied in
order. -/
def applySGR (params : List Nat) (conceal : Bool) : Bool :=
  if params = [] then false
  else (splitParams params).foldl applySGRPart conceal

/-- Main scan loop of StripANSISecrets over the remaining input, carrying the
conceal flag and the emitted bytes so far (the strings.Builder) in reverse
order. Each case mirrors part_006 lines 21-105: carriage returns are dropped;
ESC at the end of input is skipped (the loop then terminates); a CSI sequence
is scanned and, when its final byte is m, its parameters update the conceal
flag, while any other complete CSI sequence is discarded; an unterminated CSI
returns the builder contents immediately; an OSC sequence is skipped; any other
byte after ESC is reprocessed as an ordinary byte; ordinary bytes are dropped
while conceal is active and emitted otherwise. -/
def stripLoop : List Nat → Bool → List Nat → List Nat × Bool
  | [], conceal, acc => (acc.reverse, conceal)
  | b :: rest, conceal, acc =>
    if b = 13 then stripLoop rest conceal acc
    else if b = 27 then
      match rest with
      | [] => (acc.reverse, conceal)
      | c :: rest2 =>
        if c = 91 then
          match h : csiScan rest2 with
          | none => (acc.reverse, conceal)
          | some (params, final, r) =>
            stripLoop r (if final = 109 then applySGR params conceal else conceal) acc
        else if c = 93 then stripLoop (oscScan rest2) conceal acc
        else stripLoop (c :: rest2) conceal acc
    else if conceal then stripLoop rest conceal acc
    else stripLoop rest conceal (b :: acc)
termination_by input _ _ => input.length
decreasing_by
  · simp only [List.length_cons]
    omega
  · have hr : ∀ (l p : List Nat) (f : Nat) (r2 : List Nat),
        csiScan l = some (p, f, r2) → r2.length < l.length := by
      intro l
      induction l with
      | nil => intro p f r2 hh; simp [csiScan] at hh
      | cons x xs ih =>
        intro p f r2 hh
        simp only [csiScan] at hh
        split at hh
        · simp only [Option.some.injEq, Prod.mk.injEq] at hh
          obtain ⟨-, -, h3⟩ := hh
          subst h3
          simp only [List.length_cons]
          omega
        · cases hx : csiScan xs with
          | none => rw [hx] at hh; simp at hh
          | some v =>
            obtain ⟨p2, f2, r3⟩ := v
            rw [hx] at hh
            simp only [Option.some.injEq, Prod.mk.injEq] at hh
            obtain ⟨-, -, h3⟩ := hh
            subst h3
            have := ih p2 f2 r3 hx
            simp only [List.length_cons]
            omega
    have := hr _ _ _ _ h
    simp only [List.length_cons]
    omega
  · have hosc : ∀ l : List Nat, (oscScan l).length ≤ l.length := by
      intro l
      induction l with
      | nil => simp [oscScan]
      | cons x xs ih =>
        simp only [oscScan]
        split
        · simp only [List.length_cons]
          omega
        · split
          · split
            · simp only [List.length_cons]
              omega
            · simp only [List.length_cons]
              omega
          · simp only [List.length_cons]
            omega
    exact lt_of_le_of_lt (hosc _) (by simp only [List.length_cons]; omega)
  · simp only [List.length_cons]
    omega
  · simp only [List.length_cons]
    omega
  · simp only [List.length_cons]
    omega

/-- StripANSISecrets removes ANSI escape sequences from log output while keeping
regular text, strips concealed segments, drops carriage returns, and returns
the cleaned bytes together with whether a conceal sequence is still active.
Faithful to utils.StripANSISecrets (part_006); the initial early return for
empty input is the same as running the loop on an empty list. -/
def StripANSISecrets (input : List Nat) (concealActive : Bool) : List Nat × Bool :=
  stripLoop input concealActive []

/-! Log Stream Controller (console.Model, src/unnamed/part_005). Viewport,
search-input and timestamp fields are presentation-only and not modelled;
the client pointer is modelled by the flag `hasClient` (client is nil or not);
log bytes are `List Nat` and offsets are `Int` (Go int64). -/

/-- Go strings.TrimSpace restricted to ASCII whitespace (space, tab, newline,
vertical tab, form feed, carriage return); build-log URLs are ASCII. -/
def trimSpace (s : String) : String :=
  let ws : Char → Bool := fun c =>
    c.toNat = 32 ∨ c.toNat = 9 ∨ c.toNat = 10 ∨ c.toNat = 11 ∨ c.toNat = 12 ∨ c.toNat = 13
  ⟨((s.data.dropWhile ws).reverse.dropWhile ws).reverse⟩

/-- maxIdlePollIterations caps how long polling continues while Jenkins has
produced no console output (part_005 line 22). -/
def maxIdlePollIterations : Nat := 150

/-- State of the console model (part_005 lines 58-90, excluding presentation
fields). -/
structure ConsoleModel where
  hasClient : Bool
  jobName : String
  jobFullName : String
  buildNumber : Int
  buildURL : String
  hasTarget : Bool
  autoScroll : Bool
  shouldPoll : Bool
  fetchInFlight : Bool
  session : Nat
  nextOffset : Int
  content : List Nat
  hasContent : Bool
  idlePolls : Nat
  err : Option String
  concealActive : Bool
  statusMessage : String
deriving DecidableEq

/-- OpenRequestMsg instructs the console model to start streaming logs for the
given build (part_005 lines 29-34). -/
structure OpenRequestMsg where
  jobName : String
  jobFullName : String
  buildNumber : Int
  buildURL : String
deriving DecidableEq

/-- logsChunkMsg carries one completed progressive-log fetch
(part_005 lines 46-52); the error is modelled as an optional message. -/
structure LogsChunkMsg where
  session : Nat
  content : List Nat
  nextOffset : Int
  more : Bool
  err : Option String
deriving DecidableEq

/-- Commands the console model can issue: an asynchronous progressive-log fetch
(the closure built in startFetch, which later delivers a logsChunkMsg for the
captured session) and a delayed poll tick (scheduleNextPoll, which later
delivers a pollLogsMsg for the captured session). -/
inductive ConsoleCmd where
  | fetchLogs (session : Nat) (offset : Int)
  | schedulePoll (session : Nat)
deriving DecidableEq

/-- New console model (part_005 lines 93-108): auto-scroll enabled, nothing
open, session 0. -/
def consoleNew (hasClient : Bool) : ConsoleModel :=
  { hasClient := hasClient
    jobName := ""
    jobFullName := ""
    buildNumber := 0
    buildURL := ""
    hasTarget := false
    autoScroll := true
    shouldPoll := false
    fetchInFlight := false
    session := 0
    nextOffset := 0
    content := []
    hasContent := false
    idlePolls := 0
    err := none
    concealActive := false
    statusMessage := "" }

/-- startFetch (part_005 lines 386-410): does nothing without a client, a
target, or while a fetch is in flight; otherwise marks a fetch in flight and
issues the asynchronous fetch at the current offset for the current session. -/
def startFetch (m : ConsoleModel) : ConsoleModel × Option ConsoleCmd :=
  if m.hasClient = false ∨ m.hasTarget = false ∨ m.fetchInFlight = true then (m, none)
  else ({ m with fetchInFlight := true }, some (.fetchLogs m.session m.nextOffset))

/-- handleOpenRequest (part_005 lines 344-377): bumps the session, stores the
target, resets the log buffer, conceal state, offset, idle counter and error,
enables auto-scroll, and — when the target is usable — marks polling active
and issues an immediate fetch at offset 0. -/
def handleOpenRequest (m : ConsoleModel) (msg : OpenRequestMsg) :
    ConsoleModel × Option ConsoleCmd :=
  let url := trimSpace msg.buildURL
  let m1 : ConsoleModel :=
    { m with
      session := m.session + 1
      jobName := msg.jobName
      jobFullName := msg.jobFullName
      buildNumber := msg.buildNumber
      buildURL := url
      hasTarget := (0 < msg.buildNumber ∧ msg.jobFullName ≠ "") ∨ url ≠ ""
      autoScroll := true
      shouldPoll := false
      fetchInFlight := false
      nextOffset := 0
      err := none
      statusMessage := ""
      hasContent := false
      idlePolls := 0
      concealActive := false
      content := [] }
  if m1.hasTarget = false then
    ({ m1 with statusMessage := "Build has no console output yet." }, none)
  else
    startFetch { m1 with shouldPoll := true }

/-- handleDeactivate (part_005 lines 379-384): pauses background polling. -/
def handleDeactivate (m : ConsoleModel) : ConsoleModel :=
  { m with shouldPoll := false }

/-- handleLogsChunk (part_005 lines 412-486). On error: record it, stop
polling, prompt for a manual retry. Otherwise scrub the chunk, append any
output, classify progress (non-empty scrubbed output or an offset advance),
reset or bump the idle counter, adopt the server offset and more-flag, keep
polling below the idle cap even when the server reports no more data, surface
the idle/no-output message once the cap is reached, and schedule the next poll
whenever polling remains active. -/
def handleLogsChunk (m0 : ConsoleModel) (msg : LogsChunkMsg) :
    ConsoleModel × Option ConsoleCmd :=
  let m1 : ConsoleModel := { m0 with fetchInFlight := false }
  match msg.err with
  | some e =>
      ({ m1 with
          err := some e
          idlePolls := 0
          shouldPoll := false
          statusMessage := "Failed to fetch logs. Press r to retry." }, none)
  | none =>
      let prevOffset := m1.nextOffset
      let scrub := StripANSISecrets msg.content m1.concealActive
      let hasProgress : Bool := decide (scrub.1 ≠ []) || decide (prevOffset < msg.nextOffset)
      let m2 : ConsoleModel := { m1 with concealActive := scrub.2 }
      let m3 : ConsoleModel :=
        if scrub.1 ≠ [] then
          { m2 with content := m2.content ++ scrub.1, hasContent := true }
        else m2
      let m4 : ConsoleModel :=
        if hasProgress = true then { m3 with idlePolls := 0 }
        else { m3 with idlePolls := m3.idlePolls + 1 }
      let m5 : ConsoleModel :=
        { m4 with nextOffset := msg.nextOffset, shouldPoll := msg.more, err := none }
      let m6 : ConsoleModel :=
        if hasProgress = true then { m5 with statusMessage := "" } else m5
      let m7 : ConsoleModel :=
        if m6.shouldPoll = false ∧ m6.idlePolls < maxIdlePollIterations then
          { m6 with
            shouldPoll := true
            statusMessage :=
              if hasProgress = false ∧ m6.statusMessage = "" then
                "Waiting for console output..."
              else m6.statusMessage }
        else m6
      let m8 : ConsoleModel :=
        if m7.shouldPoll = false ∧ maxIdlePollIterations ≤ m7.idlePolls then
          if m7.statusMessage = "" then
            { m7 with
              statusMessage :=
                if m7.hasContent = true then "Console output idle. Press r to refresh."
                else "No console output yet. Press r to retry." }
          else m7
        else m7
      if m8.shouldPoll = true then (m8, some (.schedulePoll m8.session)) else (m8, none)

/-- Session gate for logsChunkMsg in Update (part_005 lines 160-167): a chunk
for a stale session is discarded unconditionally. -/
def handleChunkMsg (m : ConsoleModel) (msg : LogsChunkMsg) :
    ConsoleModel × Option ConsoleCmd :=
  if msg.session = m.session then handleLogsChunk m msg else (m, none)

/-- pollLogsMsg handling in Update (part_005 lines 151-158): a poll tick starts
the next fetch only for the current session, while polling is active and no
fetch is in flight. -/
def handlePoll (m : ConsoleModel) (session : Nat) : ConsoleModel × Option ConsoleCmd :=
  if session = m.session ∧ m.shouldPoll = true ∧ m.fetchInFlight = false then
    startFetch m
  else (m, none)

/-- RefreshRequestedMsg handling in Update (part_005 lines 140-149): with a
target, clear the error, announce the refresh, and start a fetch. -/
def handleRefresh (m : ConsoleModel) : ConsoleModel × Option ConsoleCmd :=
  if m.hasTarget = true then
    startFetch { m with err := none, statusMessage := "Refreshing logs..." }
  else (m, none)

/-! Trace drivers used to exercise the idle-exhaustion policy on concrete runs:
a zero-progress round delivers, for the current session, a completed fetch with
an empty chunk at an unchanged offset, followed by the scheduled poll tick. -/

/-- A completed fetch that made no progress for the current session: empty
chunk, unchanged offset, no error; the server's more-flag is a parameter. -/
def zeroChunk (m : ConsoleModel) (more : Bool) : LogsChunkMsg :=
  { session := m.session, content := [], nextOffset := m.nextOffset, more := more, err := none }

/-- One idle round: the in-flight fetch completes with zero progress, then the
scheduled poll tick for the resulting session is delivered (when polling
stopped, the poll tick is a no-op). -/
def idleRound (more : Bool) (m : ConsoleModel) : ConsoleModel :=
  let m1 := (handleChunkMsg m (zeroChunk m more)).1
  (handlePoll m1 m1.session).1

/-- Iterates idle rounds. -/
def idleRun (more : Bool) : Nat → ConsoleModel → ConsoleModel
  | 0, m => m
  | n + 1, m => idleRun more n (idleRound more m)

/-- The console model right after opening the target job "pipeline/api" build
42 from a fresh model with a configured client: session bumped to 1, buffer
and scrub state reset, polling active with the opening fetch in flight. -/
def openedConsole : ConsoleModel :=
  { consoleNew true with
      jobName := "api"
      jobFullName := "pipeline/api"
      buildNumber := 42
      hasTarget := true
      shouldPoll := true
      fetchInFlight := true
      session := 1 }

/-! Generational ticket reconciliation (src/internal/details/model.go,
src/unnamed/part_021, src/internal/jobs/model.go, src/internal/jobs/search.go).
The details panel is modelled with the fields the ticket-gated handlers touch;
viewport, spinner and confirmation-prompt state are presentation-only and not
modelled. Jobs are projected to name, full name and folder flag. -/

/-- Jenkins job as seen by the details panel. -/
structure DJob where
  name : String
  fullName : String
  isFolder : Bool
deriving DecidableEq

/-- Payload of a successful job-details fetch: the refreshed job and its
recent build numbers. -/
structure JobDetailsData where
  job : DJob
  builds : List Int
deriving DecidableEq

/-- jobDetailsResultMsg (details/model.go lines 18-23). -/
structure JobDetailsResultMsg where
  ticket : Nat
  jobFullName : String
  details : Option JobDetailsData
  err : Option String
deriving DecidableEq

/-- actionKind (part_021 lines 11-21). -/
inductive ActionKind where
  | triggerBuild
  | abortBuild
  | refresh
  | viewLogs
  | viewParameters
  | viewHistory
  | viewConfig
deriving DecidableEq

/-- actionResultMsg (part_021 lines 23-28). -/
structure ActionResultMsg where
  ticket : Nat
  kind : ActionKind
  message : String
  err : Option String
deriving DecidableEq

/-- inFlightAction (details/model.go lines 25-29). -/
structure InFlightAction where
  kind : ActionKind
  ticket : Nat
  label : String
deriving DecidableEq

/-- actionFeedback (details/model.go lines 31-35). -/
structure ActionFeedback where
  ticket : Nat
  message : String
  isError : Bool
deriving DecidableEq

/-- State of the details panel (details/model.go lines 43-62, presentation
fields and the confirmation prompt omitted). -/
structure DetailsModel where
  hasClient : Bool
  selectedJob : Option DJob
  recentBuilds : List Int
  loading : Bool
  err : Option String
  requestID : Nat
  inFlight : Option InFlightAction
  feedback : Option ActionFeedback
  actionTicket : Nat
deriving DecidableEq

/-- Commands the details panel issues: the asynchronous details fetch carrying
its ticket, the asynchronous build trigger carrying its ticket, the delayed
feedback-clear tick, and the spinner tick. -/
inductive DetailsCmd where
  | fetchDetails (ticket : Nat) (jobFullName : String)
  | triggerBuild (ticket : Nat) (jobFullName : String)
  | clearActionMessage (ticket : Nat)
  | spinnerTick
deriving DecidableEq

/-- nextActionTicket (details/model.go lines 453-456): allocates the next
action ticket. -/
def nextActionTicket (m : DetailsModel) : DetailsModel × Nat :=
  ({ m with actionTicket := m.actionTicket + 1 }, m.actionTicket + 1)

/-- setFeedbackWithTicket (details/model.go lines 458-471): ignores blank
messages; a zero ticket allocates a fresh one; records the feedback and issues
the delayed clear command. -/
def setFeedbackWithTicket (m : DetailsModel) (ticket : Nat) (message : String)
    (isError : Bool) : DetailsModel × List DetailsCmd :=
  if trimSpace message = "" then (m, [])
  else
    let alloc := if ticket = 0 then nextActionTicket m else (m, ticket)
    ({ alloc.1 with
        feedback := some { ticket := alloc.2, message := message, isError := isError } },
     [DetailsCmd.clearActionMessage alloc.2])

/-- resetActionState (details/model.go lines 205-209, confirmation prompt not
modelled). -/
def resetActionState (m : DetailsModel) : DetailsModel :=
  { m with inFlight := none, feedback := none }

/-- startJobDetailsRequest (details/model.go lines 211-215): bumps the
request ticket and issues the fetch tagged with it. -/
def startJobDetailsRequest (m : DetailsModel) (job : DJob) : DetailsModel × DetailsCmd :=
  ({ m with requestID := m.requestID + 1 },
   DetailsCmd.fetchDetails (m.requestID + 1) job.fullName)

/-- handleJobSelected (details/model.go lines 183-194): resets action state,
stores the selection, marks loading, and starts a ticketed details fetch. -/
def handleJobSelected (m : DetailsModel) (job : DJob) : DetailsModel × DetailsCmd :=
  let m1 := resetActionState m
  let m2 : DetailsModel :=
    { m1 with selectedJob := some job, recentBuilds := [], loading := true, err := none }
  startJobDetailsRequest m2 job

/-- handleJobCleared (details/model.go lines 196-203). -/
def handleJobCleared (m : DetailsModel) : DetailsModel :=
  resetActionState
    { m with loading := false, err := none, selectedJob := none, recentBuilds := [] }

/-- defaultSuccessMessage (details/model.go lines 612-624). -/
def defaultSuccessMessage (job : Option DJob) (kind : ActionKind) : String :=
  let name :=
    match job with
    | some j => if j.name = "" then "job" else j.name
    | none => "job"
  match kind with
  | ActionKind.triggerBuild => "✓ Build triggered for " ++ name
  | ActionKind.abortBuild => "✓ Abort signal sent to " ++ name
  | ActionKind.refresh => "✓ Refreshed " ++ name
  | _ => "✓ Action completed"

/-- jobDetailsResultMsg handling (details/model.go lines 101-129): a message
whose ticket differs from the current requestID is discarded outright;
otherwise loading ends, the error or the refreshed details are recorded, and a
matching in-flight action (a refresh) is completed with feedback. -/
def handleJobDetailsResult (m : DetailsModel) (msg : JobDetailsResultMsg) :
    DetailsModel × List DetailsCmd :=
  if msg.ticket ≠ m.requestID then (m, [])
  else
    let m1 : DetailsModel := { m with loading := false }
    match msg.err with
    | some e =>
        let m2 : DetailsModel := { m1 with err := some e, recentBuilds := [] }
        match m2.inFlight with
        | some act =>
            if act.ticket = msg.ticket then
              let fb := setFeedbackWithTicket m2 msg.ticket ("✗ " ++ e) true
              ({ fb.1 with inFlight := none }, fb.2)
            else (m2, [])
        | none => (m2, [])
    | none =>
        let m2 : DetailsModel := { m1 with err := none }
        let m3 : DetailsModel :=
          match msg.details with
          | some d => { m2 with selectedJob := some d.job, recentBuilds := d.builds }
          | none => m2
        match m3.inFlight with
        | some act =>
            if act.ticket = msg.ticket then
              let fb := setFeedbackWithTicket m3 msg.ticket
                (defaultSuccessMessage m3.selectedJob act.kind) false
              ({ fb.1 with inFlight := none }, fb.2)
            else (m3, [])
        | none => (m3, [])

/-- startTriggerBuildAction (details/model.go lines 527-546): with a client,
no action in flight and a non-folder job selected, allocates an action ticket,
marks the action in flight and issues the trigger command plus a spinner
tick. -/
def startTriggerBuildAction (m : DetailsModel) : DetailsModel × List DetailsCmd :=
  if m.hasClient = false ∨ m.inFlight ≠ none then (m, [])
  else
    match m.selectedJob with
    | none => (m, [])
    | some job =>
        if job.isFolder = true then (m, [])
        else
          let alloc := nextActionTicket m
          ({ alloc.1 with
              inFlight := some
                { kind := ActionKind.triggerBuild
                  ticket := alloc.2
                  label := "Triggering build for " ++ job.name ++ "..." }
              feedback := none },
           [DetailsCmd.triggerBuild alloc.2 job.fullName, DetailsCmd.spinnerTick])

/-- actionResultMsg handling (details/model.go lines 131-144): the result is
dropped unless an action is in flight and its ticket matches; otherwise the
feedback message is computed (explicit message, error, or the default success
text) and the in-flight action completes. -/
def handleActionResult (m : DetailsModel) (msg : ActionResultMsg) :
    DetailsModel × List DetailsCmd :=
  match m.inFlight with
  | none => (m, [])
  | some act =>
      if act.ticket ≠ msg.ticket then (m, [])
      else
        let fb :=
          if msg.message ≠ "" then msg.message
          else
            match msg.err with
            | some e => "✗ " ++ e
            | none => defaultSuccessMessage m.selectedJob msg.kind
        let res := setFeedbackWithTicket m msg.ticket fb (msg.err ≠ none)
        ({ res.1 with inFlight := none }, res.2)

/-! Debounced fuzzy search tickets (src/internal/jobs/model.go lines 123-128
and 369-380, src/internal/jobs/search.go). The search-stream state is projected
to the ticket and the applied query; the ranked result list produced by the
external fuzzy library (sahilm/fuzzy) is outside the repository and not
modelled. -/

/-- Search-stream state of the jobs panel. -/
structure SearchModel where
  searchTicket : Nat
  searchQuery : String
deriving DecidableEq

/-- searchQueuedMsg (search.go lines 13-16). -/
structure SearchQueuedMsg where
  query : String
  ticket : Nat
deriving DecidableEq

/-- debounceSearchCmd (search.go lines 18-26): after the debounce delay,
delivers the trimmed query tagged with the ticket. -/
inductive SearchCmd where
  | debounce (query : String) (ticket : Nat)
deriving DecidableEq

/-- applySearch (jobs/model.go lines 382-407), projected to the query field it
stores; running the external fuzzy matcher over the catalog is not modelled. -/
def applySearch (m : SearchModel) (query : String) : SearchModel :=
  { m with searchQuery := trimSpace query }

/-- scheduleSearch (jobs/model.go lines 369-380): every keystroke allocates a
new ticket; a blank query applies immediately, otherwise a debounced match
tagged with the ticket is scheduled. -/
def scheduleSearch (m : SearchModel) (raw : String) : SearchModel × Option SearchCmd :=
  let normalized := trimSpace raw
  let m1 : SearchModel := { m with searchTicket := m.searchTicket + 1 }
  if normalized = "" then (applySearch m1 "", none)
  else (m1, some (SearchCmd.debounce normalized m1.searchTicket))

/-- searchQueuedMsg handling (jobs/model.go lines 123-128): a debounced match
whose ticket is no longer current is discarded; a current one is applied. -/
def handleSearchQueued (m : SearchModel) (msg : SearchQueuedMsg) : SearchModel :=
  if msg.ticket ≠ m.searchTicket then m
  else applySearch m msg.query

/-! Concrete details-panel states exercising the action-ticket stream. -/

/-- A details panel showing job "alpha", idle, with a configured client. -/
def detailsShowingAlpha : DetailsModel :=
  { hasClient := true
    selectedJob := some { name := "alpha", fullName := "alpha", isFolder := false }
    recentBuilds := []
    loading := false
    err := none
    requestID := 0
    inFlight := none
    feedback := none
    actionTicket := 0 }

/-- The state after pressing b: the trigger action holds ticket 1. -/
def detailsAfterTrigger : DetailsModel :=
  (startTriggerBuildAction detailsShowingAlpha).1

/-- The state after then selecting job "beta": the in-flight action was
cancelled by resetActionState, while the action-ticket counter still reads 1. -/
def detailsAfterSelect : DetailsModel :=
  (handleJobSelected detailsAfterTrigger
    { name := "beta", fullName := "beta", isFolder := false }).1

/-- The trigger action's completion, arriving after the selection change,
still carrying ticket 1 — the latest action ticket ever allocated. -/
def lateActionResult : ActionResultMsg :=
  { ticket := 1, kind := ActionKind.triggerBuild, message := "done", err := none }

/-! Job Index (src/internal/jobs/tree.go, src/internal/jenkins/types.go).
A Jenkins job is a name, a full path, a class string and nested jobs; a tree
node carries the display name, full path, folder flag, expanded flag, children
and nesting level. The Go parent back-reference is a non-owning pointer used
only for upward navigation and is not representable in a pure tree; the search
highlight fields are presentation-only. Both are omitted. -/

/-- jenkins.Job (types.go lines 10-25), projected to the fields the tree
builder reads. -/
inductive Job : Type where
  | mk (name : String) (fullName : String) (cls : String) (jobs : List Job)

/-- Display name. -/
def Job.name : Job → String
  | .mk n _ _ _ => n

/-- Full hierarchical path. -/
def Job.fullName : Job → String
  | .mk _ f _ _ => f

/-- The Jenkins class attribute. -/
def Job.cls : Job → String
  | .mk _ _ c _ => c

/-- Nested jobs (populated for folders). -/
def Job.jobs : Job → List Job
  | .mk _ _ _ js => js

/-- Job.IsFolder (types.go lines 39-43): nested jobs present, or one of the
two known container classes. -/
def Job.isFolder (j : Job) : Bool :=
  !j.jobs.isEmpty ||
    j.cls == "com.cloudbees.hudson.plugins.folder.Folder" ||
    j.cls == "org.jenkinsci.plugins.workflow.multibranch.WorkflowMultiBranchProject"

/-- JobTree (tree.go lines 10-21), with the parent back-reference and the
search-highlight fields omitted. -/
inductive JobTree : Type where
  | mk (name : String) (fullName : String) (isFolder : Bool) (expanded : Bool)
      (children : List JobTree) (level : Int)

/-- Full path of a tree node. -/
def JobTree.fullName : JobTree → String
  | .mk _ f _ _ _ _ => f

/-- Level of a tree node (the synthetic root is -1). -/
def JobTree.level : JobTree → Int
  | .mk _ _ _ _ _ l => l

mutual
/-- addJobToTree (tree.go lines 48-68): builds the node for one job (initially
collapsed) and, for a folder with nested jobs, recursively builds its children
one level deeper; the Go version appends the node to the parent, here the node
is returned and the caller collects the children in order. -/
def addJobToTree : Job → Int → JobTree
  | Job.mk n f c js, level =>
      JobTree.mk n f (Job.isFolder (Job.mk n f c js)) false
        (if Job.isFolder (Job.mk n f c js) && !js.isEmpty then
          addJobChildren js (level + 1)
        else [])
        level

/-- Builds the child nodes of a folder in listing order. -/
def addJobChildren : List Job → Int → List JobTree
  | [], _ => []
  | j :: rest, level => addJobToTree j level :: addJobChildren rest level
end

/-- buildTree (tree.go lines 29-45): a synthetic always-expanded folder root at
level -1 whose children are built from the flat listing at level 0. -/
def buildTree (jobs : List Job) : JobTree :=
  JobTree.mk "" "" true true (addJobChildren jobs 0) (-1)

mutual
/-- flattenVisibleNodes (tree.go lines 71-91): depth-first pre-order flattening
that skips the synthetic root (level < 0) and descends into children only when
the node is expanded or is the root. -/
def flattenVisibleNodes : JobTree → List JobTree
  | JobTree.mk n f isF exp ch level =>
      (if 0 ≤ level then [JobTree.mk n f isF exp ch level] else []) ++
      (if exp = true ∨ level < 0 then flattenChildren ch else [])

/-- Flattens a list of sibling nodes in order. -/
def flattenChildren : List JobTree → List JobTree
  | [] => []
  | t :: rest => flattenVisibleNodes t ++ flattenChildren rest
end

mutual
/-- expandAll (tree.go lines 124-136): sets the expanded flag on every folder
node, recursively. -/
def expandAll : JobTree → JobTree
  | JobTree.mk n f isF exp ch level =>
      JobTree.mk n f isF (if isF = true then true else exp) (expandAllChildren ch) level

/-- Expands every folder in a list of sibling nodes. -/
def expandAllChildren : List JobTree → List JobTree
  | [] => []
  | t :: rest => expandAll t :: expandAllChildren rest
end

mutual
/-- Full paths of a job and all its nested jobs, in pre-order listing order. -/
def Job.paths : Job → List String
  | Job.mk _ f _ js => f :: jobsPaths js

/-- Full paths of a flat listing including all nested jobs. -/
def jobsPaths : List Job → List String
  | [] => []
  | j :: rest => Job.paths j ++ jobsPaths rest
end

mutual
/-- Number of jobs in a job including itself and all nested jobs. -/
def Job.total : Job → Nat
  | Job.mk _ _ _ js => 1 + jobsTotal js

/-- Number of jobs in a flat listing including all nested jobs. -/
def jobsTotal : List Job → Nat
  | [] => 0
  | j :: rest => Job.total j + jobsTotal rest
end

/-! Helper lemmas about the Scrub Engine. -/

/-- Unfolding: the loop on empty input returns the builder and the flag. -/
theorem stripLoop_nil (c : Bool) (acc : List Nat) :
    stripLoop [] c acc = (acc.reverse, c) := by
  simp [stripLoop]

/-- Unfolding: a carriage return is dropped. -/
theorem stripLoop_cr (rest : List Nat) (c : Bool) (acc : List Nat) :
    stripLoop (13 :: rest) c acc = stripLoop rest c acc := by
  rw [stripLoop.eq_def]
  rfl

/-- Unfolding: ESC as the last byte is skipped and the loop ends. -/
theorem stripLoop_escNil (c : Bool) (acc : List Nat) :
    stripLoop [27] c acc = (acc.reverse, c) := by
  rw [stripLoop.eq_def]
  rfl

/-- Unfolding: an unterminated CSI sequence stops processing at once. -/
theorem stripLoop_csiNone (rest2 : List Nat) (c : Bool) (acc : List Nat)
    (h : csiScan rest2 = none) :
    stripLoop (27 :: 91 :: rest2) c acc = (acc.reverse, c) := by
  rw [stripLoop.eq_def]
  simp
  split
  · rfl
  · rename_i params final r heq
    rw [h] at heq
    exact Option.noConfusion heq

/-- Unfolding: a complete CSI sequence is consumed; its parameters update the
conceal flag exactly when the final byte is m. -/
theorem stripLoop_csiSome (rest2 p : List Nat) (f : Nat) (r : List Nat) (c : Bool)
    (acc : List Nat) (h : csiScan rest2 = some (p, f, r)) :
    stripLoop (27 :: 91 :: rest2) c acc =
      stripLoop r (if f = 109 then applySGR p c else c) acc := by
  rw [stripLoop.eq_def]
  simp
  split
  · rename_i heq
    rw [h] at heq
    exact Option.noConfusion heq
  · rename_i params final r1 heq
    rw [h] at heq
    simp only [Option.some.injEq, Prod.mk.injEq] at heq
    obtain ⟨e1, e2, e3⟩ := heq
    subst e1
    subst e2
    subst e3
    rfl

/-- Unfolding: an OSC sequence is skipped to its terminator. -/
theorem stripLoop_osc (rest2 : List Nat) (c : Bool) (acc : List Nat) :
    stripLoop (27 :: 93 :: rest2) c acc = stripLoop (oscScan rest2) c acc := by
  rw [stripLoop.eq_def]
  rfl

/-- Unfolding: after ESC, a byte other than the two bracket introducers is
reprocessed as an ordinary byte. -/
theorem stripLoop_escOther (c2 : Nat) (rest2 : List Nat) (c : Bool) (acc : List Nat)
    (h1 : c2 ≠ 91) (h2 : c2 ≠ 93) :
    stripLoop (27 :: c2 :: rest2) c acc = stripLoop (c2 :: rest2) c acc := by
  rw [stripLoop.eq_def]
  simp [h1, h2]

/-- Unfolding: with conceal active, an ordinary byte is consumed and dropped. -/
theorem stripLoop_conceal (b : Nat) (rest : List Nat) (acc : List Nat)
    (h1 : b ≠ 13) (h2 : b ≠ 27) :
    stripLoop (b :: rest) true acc = stripLoop rest true acc := by
  rw [stripLoop.eq_def]
  simp [h1, h2]

/-- Unfolding: with conceal inactive, an ordinary byte is emitted. -/
theorem stripLoop_emit (b : Nat) (rest : List Nat) (acc : List Nat)
    (h1 : b ≠ 13) (h2 : b ≠ 27) :
    stripLoop (b :: rest) false acc = stripLoop rest false (b :: acc) := by
  rw [stripLoop.eq_def]
  simp [h1, h2]

/-- csiScan finds no final byte exactly when asked on bytes that all lie
outside the final-byte range. -/
theorem csiScan_none_of (p : List Nat) (h : ∀ b ∈ p, ¬(64 ≤ b ∧ b ≤ 126)) :
    csiScan p = none := by
  induction p with
  | nil => simp [csiScan]
  | cons x xs ih =>
    have hx := h x (by simp)
    have hxs := ih (fun b hb => h b (by simp [hb]))
    simp [csiScan, hx, hxs]

/-- A successful csiScan decomposes its input into parameters, the final byte
and the rest. -/
theorem csiScan_sound (l p : List Nat) (f : Nat) (r : List Nat)
    (h : csiScan l = some (p, f, r)) : l = p ++ f :: r := by
  induction l generalizing p with
  | nil => simp [csiScan] at h
  | cons x xs ih =>
    simp only [csiScan] at h
    split at h
    · simp only [Option.some.injEq, Prod.mk.injEq] at h
      obtain ⟨h1, h2, h3⟩ := h
      subst h1
      subst h2
      subst h3
      simp
    · cases hx : csiScan xs with
      | none => rw [hx] at h; simp at h
      | some v =>
        obtain ⟨p2, f2, r2⟩ := v
        rw [hx] at h
        simp only [Option.some.injEq, Prod.mk.injEq] at h
        obtain ⟨h1, h2, h3⟩ := h
        subst h2
        subst h3
        subst h1
        simp [ih p2 hx]

/-- oscScan only discards a prefix of its input. -/
theorem oscScan_sublist (l : List Nat) : (oscScan l).Sublist l := by
  induction l with
  | nil => simp [oscScan]
  | cons x xs ih =>
    simp only [oscScan]
    split
    · exact (List.sublist_cons_self x xs)
    · split
      · split
        · rename_i t
          exact ((List.sublist_cons_self 92 t).trans
            (List.sublist_cons_self x (92 :: t)))
        · exact ih.trans (List.sublist_cons_self x xs)
      · exact ih.trans (List.sublist_cons_self x xs)

/-- Bounded-length form of stripLoop_append, by induction on the length bound:
the builder argument of the loop only prepends (reversed) to the output the
loop would produce from an empty builder. -/
theorem stripLoop_append_aux : ∀ (n : Nat) (input : List Nat), input.length ≤ n →
    ∀ (c : Bool) (acc : List Nat),
    stripLoop input c acc =
      (acc.reverse ++ (stripLoop input c []).1, (stripLoop input c []).2) := by
  intro n
  induction n with
  | zero =>
    intro input hlen c acc
    have h0 : input = [] := List.eq_nil_of_length_eq_zero (Nat.le_zero.mp hlen)
    subst h0
    simp [stripLoop_nil]
  | succ n ih =>
    intro input hlen c acc
    match input with
    | [] => simp [stripLoop_nil]
    | b :: rest =>
      simp only [List.length_cons] at hlen
      by_cases hb13 : b = 13
      · subst hb13
        rw [stripLoop_cr, stripLoop_cr]
        exact ih rest (by omega) c acc
      · by_cases hb27 : b = 27
        · subst hb27
          match rest with
          | [] => simp [stripLoop_escNil]
          | c2 :: rest2 =>
            simp only [List.length_cons] at hlen
            by_cases hc91 : c2 = 91
            · subst hc91
              cases hcs : csiScan rest2 with
              | none => simp [stripLoop_csiNone rest2 _ _ hcs]
              | some v =>
                obtain ⟨p, f, r⟩ := v
                rw [stripLoop_csiSome rest2 p f r _ _ hcs,
                  stripLoop_csiSome rest2 p f r _ _ hcs]
                have hd := csiScan_sound rest2 p f r hcs
                have hr : r.length ≤ n := by
                  subst hd
                  simp only [List.length_append, List.length_cons] at hlen
                  omega
                exact ih r hr _ acc
            · by_cases hc93 : c2 = 93
              · subst hc93
                rw [stripLoop_osc, stripLoop_osc]
                have hr : (oscScan rest2).length ≤ n := by
                  have := (oscScan_sublist rest2).length_le
                  omega
                exact ih (oscScan rest2) hr c acc
              · rw [stripLoop_escOther c2 rest2 _ _ hc91 hc93,
                  stripLoop_escOther c2 rest2 _ _ hc91 hc93]
                exact ih (c2 :: rest2) (by simp only [List.length_cons]; omega) c acc
        · cases c with
          | true =>
              rw [stripLoop_conceal b rest _ hb13 hb27,
                stripLoop_conceal b rest _ hb13 hb27]
              exact ih rest (by omega) true acc
          | false =>
              rw [stripLoop_emit b rest _ hb13 hb27,
                stripLoop_emit b rest _ hb13 hb27,
                ih rest (by omega) false (b :: acc),
                ih rest (by omega) false [b]]
              simp

/-- The builder argument of the loop only prepends (reversed) to the output the
loop would produce from an empty builder. -/
theorem stripLoop_append (input : List Nat) (c : Bool) (acc : List Nat) :
    stripLoop input c acc =
      (acc.reverse ++ (stripLoop input c []).1, (stripLoop input c []).2) :=
  stripLoop_append_aux input.length input le_rfl c acc

/-- Bounded-length form of the scrub safety property: the output of the loop
from an empty builder contains no ESC and no CR byte and is a subsequence of
the input. -/
theorem stripLoop_safety_aux : ∀ (n : Nat) (input : List Nat), input.length ≤ n →
    ∀ (c : Bool),
    (stripLoop input c []).1.Sublist input ∧
      ∀ b ∈ (stripLoop input c []).1, b ≠ 27 ∧ b ≠ 13 := by
  intro n
  induction n with
  | zero =>
    intro input hlen c
    have h0 : input = [] := List.eq_nil_of_length_eq_zero (Nat.le_zero.mp hlen)
    subst h0
    simp [stripLoop_nil]
  | succ n ih =>
    intro input hlen c
    match input with
    | [] => simp [stripLoop_nil]
    | b :: rest =>
      simp only [List.length_cons] at hlen
      by_cases hb13 : b = 13
      · subst hb13
        rw [stripLoop_cr]
        obtain ⟨hs, hc⟩ := ih rest (by omega) c
        exact ⟨hs.trans (List.sublist_cons_self 13 rest), hc⟩
      · by_cases hb27 : b = 27
        · subst hb27
          match rest with
          | [] => simp [stripLoop_escNil]
          | c2 :: rest2 =>
            simp only [List.length_cons] at hlen
            by_cases hc91 : c2 = 91
            · subst hc91
              cases hcs : csiScan rest2 with
              | none => simp [stripLoop_csiNone rest2 _ _ hcs]
              | some v =>
                obtain ⟨p, f, r⟩ := v
                rw [stripLoop_csiSome rest2 p f r _ _ hcs]
                have hd := csiScan_sound rest2 p f r hcs
                have hr : r.length ≤ n := by
                  subst hd
                  simp only [List.length_append, List.length_cons] at hlen
                  omega
                obtain ⟨hs, hc⟩ := ih r hr (if f = 109 then applySGR p c else c)
                refine ⟨hs.trans ?_, hc⟩
                rw [hd]
                exact (((List.sublist_cons_self f r).trans
                  (List.sublist_append_right p (f :: r))).cons 91).cons 27
            · by_cases hc93 : c2 = 93
              · subst hc93
                rw [stripLoop_osc]
                have hr : (oscScan rest2).length ≤ n := by
                  have := (oscScan_sublist rest2).length_le
                  omega
                obtain ⟨hs, hc⟩ := ih (oscScan rest2) hr c
                refine ⟨hs.trans ?_, hc⟩
                exact (((oscScan_sublist rest2).trans
                  (List.sublist_cons_self 93 rest2)).cons 27)
              · rw [stripLoop_escOther c2 rest2 _ _ hc91 hc93]
                obtain ⟨hs, hc⟩ :=
                  ih (c2 :: rest2) (by simp only [List.length_cons]; omega) c
                exact ⟨hs.trans (List.sublist_cons_self 27 (c2 :: rest2)), hc⟩
        · cases c with
          | true =>
              rw [stripLoop_conceal b rest _ hb13 hb27]
              obtain ⟨hs, hc⟩ := ih rest (by omega) true
              exact ⟨hs.trans (List.sublist_cons_self b rest), hc⟩
          | false =>
              rw [stripLoop_emit b rest _ hb13 hb27,
                stripLoop_append rest false [b]]
              obtain ⟨hs, hc⟩ := ih rest (by omega) false
              constructor
              · simpa using hs.cons₂ b
              · intro x hx
                simp at hx
                rcases hx with hx | hx
                · subst hx
                  exact ⟨hb27, hb13⟩
                · exact hc x hx

/-- The scrub output contains no ESC and no CR byte and is a subsequence of
the input. -/
theorem stripLoop_safety (input : List Nat) (c : Bool) :
    (stripLoop input c []).1.Sublist input ∧
      ∀ b ∈ (stripLoop input c []).1, b ≠ 27 ∧ b ≠ 13 :=
  stripLoop_safety_aux input.length input le_rfl c

/-- C2: scrubbing the chunk "ESC [ 8 m s e c r e t" with conceal initially
inactive returns the empty output with conceal active (SGR parameter 8 turns
conceal on and the concealed ordinary bytes are consumed), and a subsequent
call on "m o r e ESC [ 0 m v i s i b l e" with conceal active returns
"v i s i b l e" with conceal inactive (parameter 0 resets conceal); the
conceal flag is threaded between the calls via the explicit state parameter. -/
theorem c2_conceal_spans_chunks :
    StripANSISecrets [27, 91, 56, 109, 115, 101, 99, 114, 101, 116] false = ([], true) ∧
    StripANSISecrets [109, 111, 114, 101, 27, 91, 48, 109, 118, 105, 115, 105, 98, 108, 101]
      true = ([118, 105, 115, 105, 98, 108, 101], false) := by
  constructor <;>
    simp [StripANSISecrets, stripLoop, csiScan, applySGR, splitParams, applySGRPart]

/-- C5 counterexample: the input consisting of one carriage-return byte
contains no escape byte, yet scrubbing it with conceal inactive does not return
it unchanged — the carriage return is dropped. -/
theorem c5_cr_counterexample :
    (∀ b ∈ ([13] : List Nat), b ≠ 27) ∧ StripANSISecrets [13] false ≠ ([13], false) := by
  refine ⟨by decide, ?_⟩
  have h : StripANSISecrets [13] false = ([], false) := by
    simp [StripANSISecrets, stripLoop]
  rw [h]
  simp

/-- C5 (amended): for every input containing neither the escape byte nor the
carriage-return byte, scrubbing with conceal inactive returns the input
unchanged and conceal remains inactive. -/
theorem c5_plain_text_identity (input : List Nat)
    (h : ∀ b ∈ input, b ≠ 27 ∧ b ≠ 13) :
    StripANSISecrets input false = (input, false) := by
  induction input with
  | nil => simp [StripANSISecrets, stripLoop_nil]
  | cons b rest ih =>
    obtain ⟨h27, h13⟩ := h b (by simp)
    have hrest : StripANSISecrets rest false = (rest, false) :=
      ih (fun x hx => h x (by simp [hx]))
    unfold StripANSISecrets at hrest ⊢
    rw [stripLoop_emit b rest [] h13 h27, stripLoop_append rest false [b], hrest]
    simp

/-- C5 witness: the two-byte plain text "h i" is returned unchanged. -/
theorem c5_plain_text_identity_witness :
    (∀ b ∈ ([104, 105] : List Nat), b ≠ 27 ∧ b ≠ 13) ∧
      StripANSISecrets [104, 105] false = ([104, 105], false) :=
  ⟨by decide, c5_plain_text_identity [104, 105] (by decide)⟩

/-- C6: a chunk that ends inside an unterminated CSI sequence (ESC, an opening
bracket, then only bytes outside the final-byte range 64..126) stops processing
at that escape byte: exactly the output accumulated before it is returned, none
of the partial escape bytes is emitted, and the conceal flag keeps the value it
had when the unterminated sequence began; in particular such a chunk scrubbed
from an empty builder yields empty output and an unchanged conceal flag. -/
theorem c6_incomplete_csi (p : List Nat) (h : ∀ b ∈ p, ¬(64 ≤ b ∧ b ≤ 126))
    (c : Bool) (acc : List Nat) :
    stripLoop (27 :: 91 :: p) c acc = (acc.reverse, c) ∧
      StripANSISecrets (27 :: 91 :: p) c = ([], c) := by
  have hn := csiScan_none_of p h
  refine ⟨stripLoop_csiNone p c acc hn, ?_⟩
  unfold StripANSISecrets
  rw [stripLoop_csiNone p c [] hn]
  simp

/-- C6 witness: the chunk "ESC [ 8 ;" with conceal active and the builder
holding the reversed bytes of "d o n e" returns "d o n e" and keeps conceal. -/
theorem c6_incomplete_csi_witness :
    (∀ b ∈ ([56, 59] : List Nat), ¬(64 ≤ b ∧ b ≤ 126)) ∧
      stripLoop [27, 91, 56, 59] true [101, 110, 111, 100] = ([100, 111, 110, 101], true) := by
  refine ⟨by decide, ?_⟩
  have h := (c6_incomplete_csi [56, 59] (by decide) true [101, 110, 111, 100]).1
  simpa using h

/-- C10: for every input and every initial conceal flag, the cleaned text
contains no escape byte (27) and no carriage-return byte (13) and is a
subsequence of the input's bytes — the engine only deletes bytes, never inserts
or reorders them. -/
theorem c10_scrub_output_safety (input : List Nat) (conceal : Bool) :
    (StripANSISecrets input conceal).1.Sublist input ∧
      ∀ b ∈ (StripANSISecrets input conceal).1, b ≠ 27 ∧ b ≠ 13 :=
  stripLoop_safety input conceal

/-! Helper lemmas about the Log Stream Controller. -/

/-- Scrubbing an empty chunk emits nothing and keeps the conceal flag. -/
theorem strip_nil (c : Bool) : StripANSISecrets [] c = ([], c) := by
  simp [StripANSISecrets, stripLoop_nil]

/-- C4: after a successfully fetched chunk, the idle counter is 0 when the
chunk made progress (non-empty scrubbed output or an offset advance, regardless
of the more-data flag) and the previous counter plus one otherwise; in
particular an empty chunk at an unchanged offset with more=false, while the
incremented counter is still below the cap, increments the counter and keeps
polling scheduled. -/
theorem c4_progress_resets_idle_counter (m : ConsoleModel) (msg : LogsChunkMsg)
    (herr : msg.err = none) :
    ((handleLogsChunk m msg).1.idlePolls =
      if (StripANSISecrets msg.content m.concealActive).1 ≠ [] ∨ m.nextOffset < msg.nextOffset
      then 0 else m.idlePolls + 1) ∧
    (msg.content = [] → msg.nextOffset = m.nextOffset → msg.more = false →
      m.idlePolls + 1 < maxIdlePollIterations →
      (handleLogsChunk m msg).1.idlePolls = m.idlePolls + 1 ∧
      (handleLogsChunk m msg).1.shouldPoll = true ∧
      (handleLogsChunk m msg).2 = some (ConsoleCmd.schedulePoll m.session)) := by
  constructor
  · simp only [handleLogsChunk, herr]
    by_cases h1 : (StripANSISecrets msg.content m.concealActive).1 = [] <;>
      by_cases h2 : m.nextOffset < msg.nextOffset <;>
        simp [h1, h2] <;> split_ifs <;> simp_all
  · intro hc hoff hmore hcap
    simp only [handleLogsChunk, herr, hc, hoff, hmore, strip_nil]
    simp [hcap]

/-- C4 witness: a fresh chunk ("h i", offset advance) resets the counter to 0,
and from idle counter 3 an empty chunk at an unchanged offset with more=false
reaches counter 4 with the next poll scheduled. -/
theorem c4_progress_resets_idle_counter_witness :
    ((handleLogsChunk { consoleNew true with idlePolls := 3, session := 1 }
        { session := 1, content := [], nextOffset := 0, more := false, err := none }).1.idlePolls
      = 4) ∧
    ((handleLogsChunk { consoleNew true with idlePolls := 3, session := 1 }
        { session := 1, content := [], nextOffset := 0, more := false, err := none }).2
      = some (ConsoleCmd.schedulePoll 1)) ∧
    ((handleLogsChunk { consoleNew true with idlePolls := 3, session := 1 }
        { session := 1, content := [104, 105], nextOffset := 2, more := true, err := none }).1.idlePolls
      = 0) := by
  have h1 := (c4_progress_resets_idle_counter
    { consoleNew true with idlePolls := 3, session := 1 }
    { session := 1, content := [], nextOffset := 0, more := false, err := none } rfl).2
    rfl rfl rfl (by simp [maxIdlePollIterations])
  have h2 := (c4_progress_resets_idle_counter
    { consoleNew true with idlePolls := 3, session := 1 }
    { session := 1, content := [104, 105], nextOffset := 2, more := true, err := none } rfl).1
  refine ⟨h1.1, h1.2.2, ?_⟩
  rw [h2]
  rw [if_pos]
  right
  simp [consoleNew]

/-- C8: a log-chunk completion for the current session carrying an error stops
polling (no poll command is returned and any later poll tick for any session is
a no-op on the resulting state), records the error, surfaces the retry prompt,
and an explicit refresh request on the resulting state (given the target and
client are present) issues a fetch again. -/
theorem c8_error_stops_polling (m : ConsoleModel) (msg : LogsChunkMsg) (e : String)
    (herr : msg.err = some e) (hs : msg.session = m.session) :
    (handleChunkMsg m msg).2 = none ∧
    (handleChunkMsg m msg).1.shouldPoll = false ∧
    (handleChunkMsg m msg).1.err = some e ∧
    (handleChunkMsg m msg).1.statusMessage = "Failed to fetch logs. Press r to retry." ∧
    (∀ s, handlePoll (handleChunkMsg m msg).1 s = ((handleChunkMsg m msg).1, none)) ∧
    ((handleChunkMsg m msg).1.hasTarget = true → m.hasClient = true →
      (handleRefresh (handleChunkMsg m msg).1).2 =
        some (ConsoleCmd.fetchLogs m.session m.nextOffset)) := by
  have hgate : handleChunkMsg m msg = handleLogsChunk m msg := by
    simp [handleChunkMsg, hs]
  rw [hgate]
  refine ⟨?_, ?_, ?_, ?_, ?_, ?_⟩
  · simp [handleLogsChunk, herr]
  · simp [handleLogsChunk, herr]
  · simp [handleLogsChunk, herr]
  · simp [handleLogsChunk, herr]
  · intro s
    simp [handleLogsChunk, herr, handlePoll]
  · intro hT hC
    simp only [handleLogsChunk, herr] at hT ⊢
    simp [handleRefresh, startFetch, hT, hC]

/-- C8 witness: an error chunk for session 1 of the opened console stops
polling, reports the retry prompt, ignores a later poll tick, and a refresh
issues a fresh fetch. -/
theorem c8_error_stops_polling_witness :
    ((handleChunkMsg openedConsole
        { session := 1, content := [], nextOffset := 0, more := true,
          err := some "boom" }).2 = none) ∧
    ((handleChunkMsg openedConsole
        { session := 1, content := [], nextOffset := 0, more := true,
          err := some "boom" }).1.statusMessage
      = "Failed to fetch logs. Press r to retry.") := by
  have h := c8_error_stops_polling openedConsole
    { session := 1, content := [], nextOffset := 0, more := true, err := some "boom" }
    "boom" rfl rfl
  exact ⟨h.1, h.2.2.2.1⟩

/-- C7: an open request with a usable target (positive build number plus
non-empty job path, or a non-blank build URL) on a model with a configured
client clears the log buffer, deactivates conceal, resets the offset to 0,
installs a fresh session (previous plus one), enables auto-scroll, and issues
an immediate fetch at offset 0 for the new session. -/
theorem c7_open_resets_and_fetches (m : ConsoleModel) (msg : OpenRequestMsg)
    (hcl : m.hasClient = true)
    (ht : (0 < msg.buildNumber ∧ msg.jobFullName ≠ "") ∨ trimSpace msg.buildURL ≠ "") :
    (handleOpenRequest m msg).1.content = [] ∧
    (handleOpenRequest m msg).1.concealActive = false ∧
    (handleOpenRequest m msg).1.nextOffset = 0 ∧
    (handleOpenRequest m msg).1.session = m.session + 1 ∧
    (handleOpenRequest m msg).1.autoScroll = true ∧
    (handleOpenRequest m msg).1.fetchInFlight = true ∧
    (handleOpenRequest m msg).2 = some (ConsoleCmd.fetchLogs (m.session + 1) 0) := by
  have htb : decide ((0 < msg.buildNumber ∧ msg.jobFullName ≠ "") ∨
      trimSpace msg.buildURL ≠ "") = true := decide_eq_true ht
  simp only [handleOpenRequest, startFetch]
  simp_all

/-- C7 witness: opening "pipeline/api" build 42 on a fresh console yields the
opened state and the immediate fetch at offset 0 for session 1. -/
theorem c7_open_resets_and_fetches_witness :
    (handleOpenRequest (consoleNew true)
      { jobName := "api", jobFullName := "pipeline/api", buildNumber := 42,
        buildURL := "" }).1.session = 1 ∧
    (handleOpenRequest (consoleNew true)
      { jobName := "api", jobFullName := "pipeline/api", buildNumber := 42,
        buildURL := "" }).2 = some (ConsoleCmd.fetchLogs 1 0) := by
  have h := c7_open_resets_and_fetches (consoleNew true)
    { jobName := "api", jobFullName := "pipeline/api", buildNumber := 42, buildURL := "" }
    rfl (by left; constructor; decide; decide)
  exact ⟨h.2.2.2.1, h.2.2.2.2.2.2⟩

/-- One idle round with more=true on the opened console only bumps the idle
counter: the chunk is accepted (idle counter +1, polling kept by the more
flag), the poll tick starts the next fetch. -/
theorem idleRound_more (k : Nat) :
    idleRound true { openedConsole with idlePolls := k }
      = { openedConsole with idlePolls := k + 1 } := by
  simp [idleRound, handleChunkMsg, handleLogsChunk, handlePoll, startFetch, zeroChunk,
    strip_nil, openedConsole, consoleNew, maxIdlePollIterations]

/-- Iterated idle rounds with more=true add to the idle counter. -/
theorem idleRun_more (n : Nat) : ∀ k : Nat,
    idleRun true n { openedConsole with idlePolls := k }
      = { openedConsole with idlePolls := k + n } := by
  induction n with
  | zero => intro k; simp [idleRun]
  | succ n ih =>
    intro k
    have hstep : idleRun true (n + 1) { openedConsole with idlePolls := k }
        = idleRun true n (idleRound true { openedConsole with idlePolls := k }) := rfl
    rw [hstep, idleRound_more k, ih (k + 1)]
    have : k + 1 + n = k + (n + 1) := by omega
    rw [this]

/-- One idle round with more=false below the cap: the idle counter bumps, the
first-if keeps polling and shows the waiting message, the poll tick starts the
next fetch. -/
theorem idleRound_noMore (k : Nat) (hk : k + 1 < 150) :
    idleRound false
      { openedConsole with idlePolls := k, statusMessage := "Waiting for console output..." }
      = { openedConsole with
          idlePolls := k + 1
          statusMessage := "Waiting for console output..." } := by
  simp [idleRound, handleChunkMsg, handleLogsChunk, handlePoll, startFetch, zeroChunk,
    strip_nil, openedConsole, consoleNew, maxIdlePollIterations, hk]

/-- The first idle round with more=false from the opened console sets the
waiting message and idle counter 1. -/
theorem idleRound_noMore_first :
    idleRound false openedConsole
      = { openedConsole with
          idlePolls := 1
          statusMessage := "Waiting for console output..." } := by
  simp [idleRound, handleChunkMsg, handleLogsChunk, handlePoll, startFetch, zeroChunk,
    strip_nil, openedConsole, consoleNew, maxIdlePollIterations]

/-- Iterated idle rounds with more=false below the cap add to the idle counter
and keep the waiting message. -/
theorem idleRun_noMore (n : Nat) : ∀ k : Nat, k + n < 150 →
    idleRun false n
      { openedConsole with idlePolls := k, statusMessage := "Waiting for console output..." }
      = { openedConsole with
          idlePolls := k + n
          statusMessage := "Waiting for console output..." } := by
  induction n with
  | zero => intro k hk; simp [idleRun]
  | succ n ih =>
    intro k hk
    have hstep : idleRun false (n + 1)
        { openedConsole with
          idlePolls := k
          statusMessage := "Waiting for console output..." }
        = idleRun false n (idleRound false
            { openedConsole with
              idlePolls := k
              statusMessage := "Waiting for console output..." }) := rfl
    rw [hstep, idleRound_noMore k (by omega), ih (k + 1) (by omega)]
    have : k + 1 + n = k + (n + 1) := by omega
    rw [this]

/-- The state of the all-more=false idle trace after 149 completed rounds. -/
theorem idleRun_noMore_149 :
    idleRun false 149 openedConsole
      = { openedConsole with
          idlePolls := 149
          statusMessage := "Waiting for console output..." } := by
  have hstep : idleRun false 149 openedConsole
      = idleRun false 148 (idleRound false openedConsole) := rfl
  rw [hstep, idleRound_noMore_first, idleRun_noMore 148 1 (by omega)]

/-- C3 counterexample: after 150 consecutive completed zero-progress fetches
(each reporting more=true), the controller is still polling: the 150th chunk is
processed with idle counter 150 and still schedules the next (151st) poll, so
idle exhaustion does not occur on this trace. -/
theorem c3_counterexample :
    (idleRun true 149 openedConsole).idlePolls = 149 ∧
    (handleChunkMsg (idleRun true 149 openedConsole)
      (zeroChunk (idleRun true 149 openedConsole) true)).1.idlePolls = 150 ∧
    (handleChunkMsg (idleRun true 149 openedConsole)
      (zeroChunk (idleRun true 149 openedConsole) true)).2
      = some (ConsoleCmd.schedulePoll 1) := by
  have h0 : ({ openedConsole with idlePolls := 0 } : ConsoleModel) = openedConsole := rfl
  have hr := idleRun_more 149 0
  rw [h0] at hr
  rw [hr]
  refine ⟨?_, ?_, ?_⟩ <;>
    simp [handleChunkMsg, handleLogsChunk, zeroChunk, strip_nil, openedConsole,
      consoleNew, maxIdlePollIterations]

/-- C3 (amended): zero-progress completed fetches increment the idle counter,
and the controller stops polling at the first zero-progress fetch that both
reports more=false and drives the counter to the cap of 150: no further poll is
scheduled and later poll ticks are no-ops. The idle/no-output message is shown
only if no status message is pending at that point: in the all-more=false trace
from an opened target, the earlier idle rounds had already set
"Waiting for console output...", so that message remains on exhaustion, while
in a trace whose first 149 zero-progress fetches carried more=true, the 150th
fetch with more=false stops polling and reports
"No console output yet. Press r to retry." (no content was ever received). -/
theorem c3_idle_exhaustion_amended :
    (∀ (m : ConsoleModel) (msg : LogsChunkMsg),
      msg.err = none → msg.session = m.session →
      (StripANSISecrets msg.content m.concealActive).1 = [] →
      ¬ (m.nextOffset < msg.nextOffset) →
      msg.more = false →
      maxIdlePollIterations ≤ m.idlePolls + 1 →
      (handleChunkMsg m msg).1.idlePolls = m.idlePolls + 1 ∧
      (handleChunkMsg m msg).1.shouldPoll = false ∧
      (handleChunkMsg m msg).2 = none ∧
      (∀ s, handlePoll (handleChunkMsg m msg).1 s = ((handleChunkMsg m msg).1, none)) ∧
      ((handleChunkMsg m msg).1.statusMessage =
        if m.statusMessage = "" then
          (if m.hasContent = true then "Console output idle. Press r to refresh."
           else "No console output yet. Press r to retry.")
        else m.statusMessage)) ∧
    ((handleChunkMsg (idleRun false 149 openedConsole)
        (zeroChunk (idleRun false 149 openedConsole) false)).1.shouldPoll = false ∧
      (handleChunkMsg (idleRun false 149 openedConsole)
        (zeroChunk (idleRun false 149 openedConsole) false)).2 = none ∧
      (handleChunkMsg (idleRun false 149 openedConsole)
        (zeroChunk (idleRun false 149 openedConsole) false)).1.statusMessage
        = "Waiting for console output...") ∧
    ((handleChunkMsg (idleRun true 149 openedConsole)
        (zeroChunk (idleRun true 149 openedConsole) false)).1.shouldPoll = false ∧
      (handleChunkMsg (idleRun true 149 openedConsole)
        (zeroChunk (idleRun true 149 openedConsole) false)).2 = none ∧
      (handleChunkMsg (idleRun true 149 openedConsole)
        (zeroChunk (idleRun true 149 openedConsole) false)).1.statusMessage
        = "No console output yet. Press r to retry.") := by
  refine ⟨?_, ?_, ?_⟩
  · intro m msg herr hs hscrub hoff hmore hcap
    have hgate : handleChunkMsg m msg = handleLogsChunk m msg := by
      simp [handleChunkMsg, hs]
    rw [hgate]
    simp only [handleLogsChunk, herr, hscrub, hmore]
    have hcap2 : ¬ (m.idlePolls + 1 < maxIdlePollIterations) := by omega
    by_cases hsm : m.statusMessage = "" <;>
      by_cases hhc : m.hasContent = true <;>
        simp [hoff, hcap2, hcap, hsm, hhc, handlePoll]
  · rw [idleRun_noMore_149]
    refine ⟨?_, ?_, ?_⟩ <;>
      simp [handleChunkMsg, handleLogsChunk, zeroChunk, strip_nil, openedConsole,
        consoleNew, maxIdlePollIterations]
  · have h0 : ({ openedConsole with idlePolls := 0 } : ConsoleModel) = openedConsole := rfl
    have hr := idleRun_more 149 0
    rw [h0] at hr
    rw [hr]
    refine ⟨?_, ?_, ?_⟩ <;>
      simp [handleChunkMsg, handleLogsChunk, zeroChunk, strip_nil, openedConsole,
        consoleNew, maxIdlePollIterations]

/-- C3 witness: at idle counter 149 of the opened console, a zero-progress
chunk with more=false drives the counter to 150, stops polling, returns no
command, and ignores a later poll tick. -/
theorem c3_idle_exhaustion_amended_witness :
    (handleChunkMsg { openedConsole with idlePolls := 149 }
      { session := 1, content := [], nextOffset := 0, more := false, err := none }).1.idlePolls
      = 150 ∧
    (handleChunkMsg { openedConsole with idlePolls := 149 }
      { session := 1, content := [], nextOffset := 0, more := false, err := none }).1.shouldPoll
      = false ∧
    (handleChunkMsg { openedConsole with idlePolls := 149 }
      { session := 1, content := [], nextOffset := 0, more := false, err := none }).2
      = none := by
  have h := c3_idle_exhaustion_amended.1 { openedConsole with idlePolls := 149 }
    { session := 1, content := [], nextOffset := 0, more := false, err := none }
    rfl rfl (by rw [strip_nil]) (by simp [openedConsole, consoleNew]) rfl
    (by simp [maxIdlePollIterations, openedConsole, consoleNew])
  exact ⟨h.1, h.2.1, h.2.2.1⟩

/-- C1 counterexample: on the build-action stream, a completion whose ticket
equals the stream's latest allocated ticket is not applied when the in-flight
action was cancelled by a selection change: after triggering a build (ticket 1)
on job "alpha" and then selecting job "beta" (which resets the action state but
allocates no new action ticket), the arriving completion with ticket 1 — equal
to the current action ticket — leaves the model unchanged and sets no feedback,
whereas the same message applied before the selection change does set
feedback. -/
theorem c1_counterexample :
    detailsAfterSelect.actionTicket = 1 ∧
    detailsAfterSelect.inFlight = none ∧
    lateActionResult.ticket = 1 ∧
    handleActionResult detailsAfterSelect lateActionResult = (detailsAfterSelect, []) ∧
    (handleActionResult detailsAfterTrigger lateActionResult).1.feedback
      = some { ticket := 1, message := "done", isError := false } := by
  refine ⟨?_, ?_, ?_, ?_, ?_⟩ <;> decide

/-- C1 (amended): each allocation strictly increases the stream's current
ticket for all three streams (job-detail fetch, debounced search, build
action). For the job-detail and search streams a completion message is applied
iff its ticket equals the stream's current ticket at arrival time, and any
other (in particular any earlier) ticket leaves the model state unchanged. For
the build-action stream a completion is applied iff an action is still in
flight and the message's ticket equals that action's ticket; an action
cancelled by a selection change or clear drops its completion even when its
ticket is still the latest allocated one. -/
theorem c1_ticket_reconciliation_amended :
    (∀ (m : DetailsModel) (job : DJob),
      (handleJobSelected m job).1.requestID = m.requestID + 1 ∧
      (handleJobSelected m job).2 = DetailsCmd.fetchDetails (m.requestID + 1) job.fullName) ∧
    (∀ (m : SearchModel) (raw : String),
      (scheduleSearch m raw).1.searchTicket = m.searchTicket + 1) ∧
    (∀ (m : DetailsModel),
      (nextActionTicket m).2 = m.actionTicket + 1 ∧
      (nextActionTicket m).1.actionTicket = m.actionTicket + 1) ∧
    (∀ (m : DetailsModel) (msg : JobDetailsResultMsg),
      (msg.ticket ≠ m.requestID → handleJobDetailsResult m msg = (m, [])) ∧
      (msg.ticket = m.requestID →
        (handleJobDetailsResult m msg).1.loading = false ∧
        (handleJobDetailsResult m msg).1.err = msg.err)) ∧
    (∀ (m : SearchModel) (msg : SearchQueuedMsg),
      (msg.ticket ≠ m.searchTicket → handleSearchQueued m msg = m) ∧
      (msg.ticket = m.searchTicket → handleSearchQueued m msg = applySearch m msg.query)) ∧
    (∀ (m : DetailsModel) (msg : ActionResultMsg),
      (m.inFlight = none → handleActionResult m msg = (m, [])) ∧
      (∀ act, m.inFlight = some act → act.ticket ≠ msg.ticket →
        handleActionResult m msg = (m, [])) ∧
      (∀ act, m.inFlight = some act → act.ticket = msg.ticket →
        (handleActionResult m msg).1.inFlight = none)) := by
  refine ⟨?_, ?_, ?_, ?_, ?_, ?_⟩
  · intro m job
    simp [handleJobSelected, resetActionState, startJobDetailsRequest]
  · intro m raw
    simp only [scheduleSearch]
    split
    · simp [applySearch]
    · simp
  · intro m
    simp [nextActionTicket]
  · intro m msg
    constructor
    · intro h
      simp [handleJobDetailsResult, h]
    · intro h
      simp only [handleJobDetailsResult, h]
      rcases herr : msg.err with _ | e <;>
        rcases hd : msg.details with _ | d <;>
          rcases hin : m.inFlight with _ | act <;>
            simp [herr, hd, hin, setFeedbackWithTicket, nextActionTicket] <;>
              split_ifs <;> simp
  · intro m msg
    constructor
    · intro h
      simp [handleSearchQueued, h]
    · intro h
      simp [handleSearchQueued, h]
  · intro m msg
    refine ⟨?_, ?_, ?_⟩
    · intro h
      simp [handleActionResult, h]
    · intro act hin hne
      simp [handleActionResult, hin, hne]
    · intro act hin heq
      simp only [handleActionResult, hin, heq]
      simp [setFeedbackWithTicket, nextActionTicket]

/-- C1 witness: on the concrete details panel showing "alpha" (requestID 0,
searchTicket 2 model), a selection allocates ticket 1, a stale details result
with ticket 7 is dropped, a stale search result with ticket 1 is dropped, and
an action result with no action in flight is dropped. -/
theorem c1_ticket_reconciliation_amended_witness :
    (handleJobSelected detailsShowingAlpha
      { name := "beta", fullName := "beta", isFolder := false }).1.requestID = 1 ∧
    handleJobDetailsResult detailsShowingAlpha
      { ticket := 7, jobFullName := "alpha", details := none, err := none }
      = (detailsShowingAlpha, []) ∧
    handleSearchQueued { searchTicket := 2, searchQuery := "" }
      { query := "abc", ticket := 1 } = { searchTicket := 2, searchQuery := "" } ∧
    handleActionResult detailsShowingAlpha
      { ticket := 1, kind := ActionKind.triggerBuild, message := "", err := none }
      = (detailsShowingAlpha, []) := by
  refine ⟨?_, ?_, ?_, ?_⟩
  · exact (c1_ticket_reconciliation_amended.1 detailsShowingAlpha
      { name := "beta", fullName := "beta", isFolder := false }).1
  · exact (c1_ticket_reconciliation_amended.2.2.2.1 detailsShowingAlpha
      { ticket := 7, jobFullName := "alpha", details := none, err := none }).1 (by decide)
  · exact (c1_ticket_reconciliation_amended.2.2.2.2.1
      { searchTicket := 2, searchQuery := "" }
      { query := "abc", ticket := 1 }).1 (by decide)
  · exact (c1_ticket_reconciliation_amended.2.2.2.2.2 detailsShowingAlpha
      { ticket := 1, kind := ActionKind.triggerBuild, message := "", err := none }).1 rfl

/-! Helper lemmas about the Job Index. -/

/-- Structural induction principle for jobs with nested job lists. -/
theorem Job.my_ind {P : Job → Prop}
    (h : ∀ n f c js, (∀ j ∈ js, P j) → P (Job.mk n f c js)) : ∀ j, P j
  | Job.mk n f c js => h n f c js (fun j hj => Job.my_ind h j)
termination_by j => sizeOf j
decreasing_by
  have := List.sizeOf_lt_of_mem hj
  simp only [Job.mk.sizeOf_spec]
  omega

/-- A job that is not a folder has no nested jobs. -/
theorem jobs_nil_of_not_isFolder (n f c : String) (js : List Job)
    (h : Job.isFolder (Job.mk n f c js) = false) : js = [] := by
  cases js with
  | nil => rfl
  | cons a as => simp [Job.isFolder, Job.jobs] at h

/-- Flattening the fully expanded children of a listing lists the full paths of
the listing's jobs (including nested jobs) in pre-order, provided the statement
holds for the members. -/
theorem flatten_expand_jobs_of (js : List Job) (level : Int) (h : 0 ≤ level)
    (hmem : ∀ j ∈ js, ∀ lv : Int, 0 ≤ lv →
      (flattenVisibleNodes (expandAll (addJobToTree j lv))).map JobTree.fullName
        = Job.paths j) :
    (flattenChildren (expandAllChildren (addJobChildren js level))).map JobTree.fullName
      = jobsPaths js := by
  induction js with
  | nil => simp [addJobChildren, expandAllChildren, flattenChildren, jobsPaths]
  | cons j rest ih =>
    simp only [addJobChildren, expandAllChildren, flattenChildren, jobsPaths,
      List.map_append]
    rw [hmem j (by simp) level h, ih (fun x hx => hmem x (by simp [hx]))]

/-- Flattening a built and fully expanded job node at a navigable level lists
the job's own full path followed by the full paths of its nested jobs. -/
theorem flatten_expand_job : ∀ j : Job, ∀ level : Int, 0 ≤ level →
    (flattenVisibleNodes (expandAll (addJobToTree j level))).map JobTree.fullName
      = Job.paths j := by
  intro j
  induction j using Job.my_ind with
  | h n f c js ihmem =>
    intro level hlevel
    by_cases hf : Job.isFolder (Job.mk n f c js) = true
    · by_cases hjs : js.isEmpty = true
      · have hnil : js = [] := List.isEmpty_iff.mp hjs
        subst hnil
        simp [addJobToTree, expandAll, expandAllChildren, flattenVisibleNodes,
          flattenChildren, Job.paths, jobsPaths, hf, hlevel, JobTree.fullName]
      · simp only [addJobToTree, hf, hjs, Bool.not_false, Bool.and_true,
          Bool.not_eq_true', Bool.true_and, if_pos]
        simp only [expandAll, hf, if_pos, flattenVisibleNodes]
        rw [if_pos hlevel]
        simp only [true_or, if_true, List.map_append, List.map_cons,
          JobTree.fullName, List.map_nil]
        rw [flatten_expand_jobs_of js (level + 1) (by omega) ihmem]
        simp [Job.paths]
    · have hf2 : Job.isFolder (Job.mk n f c js) = false := by
        simpa using hf
      have hnil : js = [] := jobs_nil_of_not_isFolder n f c js hf2
      subst hnil
      have hnl : ¬ level < 0 := by omega
      simp [addJobToTree, expandAll, expandAllChildren, flattenVisibleNodes,
        flattenChildren, Job.paths, jobsPaths, hf2, hlevel, hnl, JobTree.fullName]

/-- The full-path list of a listing has one entry per job, provided the
statement holds for the members. -/
theorem jobsPaths_length_of (js : List Job)
    (hmem : ∀ j ∈ js, (Job.paths j).length = Job.total j) :
    (jobsPaths js).length = jobsTotal js := by
  induction js with
  | nil => simp [jobsPaths, jobsTotal]
  | cons j rest ih =>
    simp only [jobsPaths, jobsTotal, List.length_append]
    rw [hmem j (by simp), ih (fun x hx => hmem x (by simp [hx]))]

/-- The full-path list of a job (itself and its nested jobs) has one entry per
job. -/
theorem job_paths_length : ∀ j : Job, (Job.paths j).length = Job.total j := by
  intro j
  induction j using Job.my_ind with
  | h n f c js ihmem =>
    simp only [Job.paths, Job.total, List.length_cons]
    rw [jobsPaths_length_of js ihmem]
    omega

/-- C9: for every flat job listing whose jobs (including nested jobs) have
pairwise-distinct full paths, building the tree, expanding every folder and
flattening the visible nodes yields exactly one node per job (the synthetic
root excluded), and the nodes' full paths are pairwise distinct. -/
theorem c9_job_index_round_trip (jobs : List Job)
    (h : (jobsPaths jobs).Nodup) :
    (flattenVisibleNodes (expandAll (buildTree jobs))).length = jobsTotal jobs ∧
    ((flattenVisibleNodes (expandAll (buildTree jobs))).map JobTree.fullName).Nodup := by
  have hroot : (flattenVisibleNodes (expandAll (buildTree jobs))).map JobTree.fullName
      = jobsPaths jobs := by
    simp only [buildTree, expandAll, flattenVisibleNodes, if_pos, if_true]
    rw [if_neg (by omega)]
    simp only [true_or, if_true, List.nil_append]
    exact flatten_expand_jobs_of jobs 0 (by omega)
      (fun j hj lv hlv => flatten_expand_job j lv hlv)
  refine ⟨?_, ?_⟩
  · have hlen := congrArg List.length hroot
    simp only [List.length_map] at hlen
    rw [hlen]
    exact jobsPaths_length_of jobs (fun j hj => job_paths_length j)
  · rw [hroot]
    exact h

/-- C9 witness: a listing with one plain job and one folder holding two jobs
(four jobs in all, distinct paths) flattens to exactly four nodes with
pairwise-distinct full paths. -/
theorem c9_job_index_round_trip_witness :
    ((jobsPaths
      [Job.mk "app" "app" "" [],
       Job.mk "prod" "prod" "com.cloudbees.hudson.plugins.folder.Folder"
         [Job.mk "api" "prod/api" "" [], Job.mk "web" "prod/web" "" []]]).Nodup) ∧
    (flattenVisibleNodes (expandAll (buildTree
      [Job.mk "app" "app" "" [],
       Job.mk "prod" "prod" "com.cloudbees.hudson.plugins.folder.Folder"
         [Job.mk "api" "prod/api" "" [], Job.mk "web" "prod/web" "" []]]))).length = 4 := by
  have hnd : (jobsPaths
      [Job.mk "app" "app" "" [],
       Job.mk "prod" "prod" "com.cloudbees.hudson.plugins.folder.Folder"
         [Job.mk "api" "prod/api" "" [], Job.mk "web" "prod/web" "" []]]).Nodup := by
    decide
  have h := c9_job_index_round_trip
    [Job.mk "app" "app" "" [],
     Job.mk "prod" "prod" "com.cloudbees.hudson.plugins.folder.Folder"
       [Job.mk "api" "prod/api" "" [], Job.mk "web" "prod/web" "" []]] hnd
  refine ⟨hnd, ?_⟩
  rw [h.1]
  decide

end JDash
